import Mathlib

/-!
# Verification of the mail session gateway (packages/email)

Shallow embedding of the core of the email MCP server:

* `core/config.ts` — provider presets and `resolveAccount`;
* `core/imap-client.ts` — `ImapClient` (connection options, list/search/detail,
  flag/delete/move, search-query construction, summary parsing);
* `core/smtp-client.ts` — `SmtpClient` (reply/forward composition);
* `core/tools/list.ts` and the search tool — caller-side limit clamping.

JavaScript strings are modelled as Lean `String`; the handful of string
primitives the source uses (`split`, `trim`, `toLowerCase`, `startsWith`,
`join`) are re-implemented structurally over `List Char` so that every
definition evaluates inside the kernel.  Optional / possibly-`undefined`
values are `Option`; JS truthiness on strings (`undefined` and `""` are
falsy) is made explicit.  Fallible TypeScript code (functions that `throw`)
returns `Except String`.
-/

namespace EmailMcp

/-! ## JS string primitives (structural models) -/

/-- JS `String.prototype.split(sep)` for a one-character separator, over
char lists.  `"".split(c)` yields `[""]`, as in JS. -/
def splitOnChar (c : Char) : List Char → List (List Char)
  | [] => [[]]
  | x :: xs =>
    match splitOnChar c xs with
    | [] => [[]]
    | g :: gs => if x = c then [] :: g :: gs else (x :: g) :: gs

/-- JS `String.prototype.split` with a single-character separator. -/
def jsSplit (s : String) (sep : Char) : List String :=
  (splitOnChar sep s.toList).map (fun l => String.mk l)

/-- JS `String.prototype.trim` (whitespace stripped from both ends). -/
def jsTrim (s : String) : String :=
  String.mk (((s.toList.dropWhile Char.isWhitespace).reverse.dropWhile
    Char.isWhitespace).reverse)

/-- JS `String.prototype.toLowerCase`, restricted to the ASCII range the
sources compare against (`"re:"`, `"fwd:"`). -/
def jsToLower (s : String) : String :=
  String.mk (s.toList.map Char.toLower)

/-- Prefix test over char lists (pattern first). -/
def startsWithList : List Char → List Char → Bool
  | [], _ => true
  | _ :: _, [] => false
  | p :: ps, c :: cs => p = c && startsWithList ps cs

/-- JS `String.prototype.startsWith`. -/
def jsStartsWith (s pre : String) : Bool :=
  startsWithList pre.toList s.toList

/-- JS `Array.prototype.join(sep)`. -/
def joinSep (sep : String) : List String → String
  | [] => ""
  | x :: xs => xs.foldl (fun acc y => acc ++ sep ++ y) x

/-- JS truthiness of an optional string: `undefined` and `""` are falsy. -/
def jsTruthyStr : Option String → Bool
  | none => false
  | some s => s ≠ ""

/-- JS truthiness of an optional boolean: only `true` is truthy. -/
def jsTruthyBool : Option Bool → Bool
  | none => false
  | some b => b

/-! ## Account Resolver (`core/config.ts`) -/

/-- Provider tags of `AccountSchema.provider`
(`'gmail' | 'qq' | '163' | 'outlook' | 'custom'`); `p163` stands for the
tag `"163"`, which is not a Lean identifier. -/
inductive Provider where
  | gmail
  | qq
  | p163
  | outlook
  | custom
deriving DecidableEq, Repr

/-- One entry of the `EMAIL_PROVIDERS` preset table.  `requiresImapId`
models `'requiresImapId' in preset ? preset.requiresImapId : false`. -/
structure ProviderPreset where
  imap_server : String
  imap_port : Nat
  smtp_server : String
  smtp_port : Nat
  smtp_secure : Bool
  trash_folder : String
  requiresImapId : Bool
deriving DecidableEq, Repr

/-- The `EMAIL_PROVIDERS` table of `config.ts` (lines 7–42).  `custom`
has no entry, exactly as in the source object keyed by the four tags. -/
def EMAIL_PROVIDERS : Provider → Option ProviderPreset
  | .gmail => some ⟨"imap.gmail.com", 993, "smtp.gmail.com", 587, false, "[Gmail]/Trash", false⟩
  | .qq => some ⟨"imap.qq.com", 993, "smtp.qq.com", 465, true, "Deleted Messages", false⟩
  | .p163 => some ⟨"imap.163.com", 993, "smtp.163.com", 465, true, "已删除", true⟩
  | .outlook => some ⟨"outlook.office365.com", 993, "smtp.office365.com", 587, false, "Deleted", false⟩
  | .custom => none

/-- `Account` (`z.infer<typeof AccountSchema>`): the optional override
fields are `Option`. -/
structure Account where
  id : String
  email : String
  password : String
  provider : Provider
  imap_server : Option String := none
  imap_port : Option Nat := none
  smtp_server : Option String := none
  smtp_port : Option Nat := none
  smtp_secure : Option Bool := none
  trash_folder : Option String := none
deriving DecidableEq, Repr

/-- `ResolvedAccount`: every optional connection field resolved to a
concrete value.  `requiresImapId` stays optional: the `custom` branch of
`resolveAccount` never sets it (spread of a plain `Account`). -/
structure ResolvedAccount where
  id : String
  email : String
  password : String
  provider : Provider
  imap_server : String
  imap_port : Nat
  smtp_server : String
  smtp_port : Nat
  smtp_secure : Bool
  trash_folder : String
  requiresImapId : Option Bool := none
deriving DecidableEq, Repr

/-- `resolveAccount` (`config.ts` lines 100–131).  The source tests
`account.provider === 'custom'`, which holds exactly when the provider
has no preset entry; the `custom` guard `!account.imap_server ||
!account.smtp_server` is JS falsiness (absent or empty string). -/
def resolveAccount (account : Account) : Except String ResolvedAccount :=
  match EMAIL_PROVIDERS account.provider with
  | none =>
    if jsTruthyStr account.imap_server = false ∨ jsTruthyStr account.smtp_server = false then
      Except.error
        ("Account \"" ++ account.id ++ "\" uses custom provider but missing server configuration")
    else
      Except.ok
        { id := account.id
          email := account.email
          password := account.password
          provider := account.provider
          imap_server := account.imap_server.getD ""
          imap_port := account.imap_port.getD 993
          smtp_server := account.smtp_server.getD ""
          smtp_port := account.smtp_port.getD 465
          smtp_secure := account.smtp_secure.getD true
          trash_folder := account.trash_folder.getD "Trash"
          requiresImapId := none }
  | some preset =>
      Except.ok
        { id := account.id
          email := account.email
          password := account.password
          provider := account.provider
          imap_server := account.imap_server.getD preset.imap_server
          imap_port := account.imap_port.getD preset.imap_port
          smtp_server := account.smtp_server.getD preset.smtp_server
          smtp_port := account.smtp_port.getD preset.smtp_port
          smtp_secure := account.smtp_secure.getD preset.smtp_secure
          trash_folder := account.trash_folder.getD preset.trash_folder
          requiresImapId := some preset.requiresImapId }

/-- View a `ResolvedAccount` at the `Account` type (TypeScript does this
implicitly by structural subtyping when `resolveAccount` is applied to an
already-resolved record).  The `Account` type has no `requiresImapId`
member, so that field is not carried over. -/
def ResolvedAccount.toAccount (r : ResolvedAccount) : Account :=
  { id := r.id
    email := r.email
    password := r.password
    provider := r.provider
    imap_server := some r.imap_server
    imap_port := some r.imap_port
    smtp_server := some r.smtp_server
    smtp_port := some r.smtp_port
    smtp_secure := some r.smtp_secure
    trash_folder := some r.trash_folder }

/-! ## Message model (`imap-client.ts` interfaces and imapflow objects) -/

/-- One entry of an imapflow envelope address list
(`{ name?, address? }`). -/
structure Address where
  name : Option String := none
  address : Option String := none
deriving DecidableEq, Repr

/-- The parts of an imapflow `envelope` used by the client.  `date` holds
the already ISO-formatted date string (`envelope.date?.toISOString()`). -/
structure Envelope where
  from_ : Option (List Address) := none
  to_ : Option (List Address) := none
  cc : Option (List Address) := none
  bcc : Option (List Address) := none
  subject : Option String := none
  date : Option String := none
  messageId : Option String := none
deriving DecidableEq, Repr

/-- An imapflow `bodyStructure` node: a disposition plus child nodes. -/
inductive BodyStructure where
  | node (disposition : Option String) (childNodes : List BodyStructure)

/-- The fields of an imapflow `FetchMessageObject` the client reads.
`source` is the raw message source (absent when the server returned
none). -/
structure FetchMessageObject where
  uid : Nat
  envelope : Option Envelope := none
  flags : List String := []
  bodyStructure : Option BodyStructure := none
  source : Option String := none

/-- `EmailSummary` (`imap-client.ts` lines 8–27). -/
structure EmailSummary where
  uid : Nat
  from_ : String
  to_ : String
  subject : String
  date : String
  seen : Bool
  flagged : Bool
  hasAttachments : Bool
  preview : String
deriving DecidableEq, Repr

/-- `AttachmentInfo` (`imap-client.ts` lines 50–59). -/
structure AttachmentInfo where
  filename : String
  contentType : String
  size : Nat
  content : Option String := none
deriving DecidableEq, Repr

/-- `EmailDetail` (`imap-client.ts` lines 32–45), flattened. -/
structure EmailDetail where
  uid : Nat
  from_ : String
  to_ : String
  cc : String
  bcc : String
  subject : String
  date : String
  messageId : String
  seen : Bool
  flagged : Bool
  hasAttachments : Bool
  preview : String
  textBody : String
  htmlBody : String
  attachments : List AttachmentInfo
deriving DecidableEq, Repr

/-- `ImapClient.formatAddress` (lines 604–617): `"Name <addr>"` when both
name and address are non-empty (JS truthiness of `addr.name &&
addr.address`), else `addr.address ?? addr.name ?? ''`; empty entries are
filtered out and the rest joined with `", "`. -/
def formatAddress (addresses : Option (List Address)) : String :=
  match addresses with
  | none => ""
  | some l =>
    if l.isEmpty then ""
    else
      joinSep ", "
        ((l.map (fun addr =>
          if addr.name.getD "" ≠ "" ∧ addr.address.getD "" ≠ "" then
            addr.name.getD "" ++ " <" ++ addr.address.getD "" ++ ">"
          else
            match addr.address with
            | some a => a
            | none => addr.name.getD "")).filter (fun s => s ≠ ""))

/-- The recursive disposition check of `ImapClient.hasAttachments`
(lines 622–638): a node counts when its disposition is `"attachment"` or
any child node does. -/
def hasAttachmentsCheck : BodyStructure → Bool
  | .node disposition childNodes =>
    disposition == some "attachment" ||
      childNodes.attach.any (fun c => hasAttachmentsCheck c.1)
decreasing_by
  have h := List.sizeOf_lt_of_mem c.2
  simp only [BodyStructure.node.sizeOf_spec]
  omega

/-- `ImapClient.hasAttachments` on the optional `bodyStructure`. -/
def hasAttachments : Option BodyStructure → Bool
  | none => false
  | some bs => hasAttachmentsCheck bs

/-- `ImapClient.parseEmailSummary` (lines 535–566).  The preview
computation (lines 540–553: a regex over the raw source plus
quoted-printable decoding) is abstracted as the function argument
`previewOf`, applied to the optional raw source; every other field is
embedded directly. -/
def parseEmailSummary (msg : FetchMessageObject)
    (previewOf : Option String → String) : EmailSummary :=
  { uid := msg.uid
    from_ := match msg.envelope with
      | some e => formatAddress e.from_
      | none => ""
    to_ := match msg.envelope with
      | some e => formatAddress e.to_
      | none => ""
    subject := (msg.envelope.bind (fun e => e.subject)).getD "(无主题)"
    date := (msg.envelope.bind (fun e => e.date)).getD ""
    seen := msg.flags.contains "\\Seen"
    flagged := msg.flags.contains "\\Flagged"
    hasAttachments := hasAttachments msg.bodyStructure
    preview := jsTrim (previewOf msg.source) }

/-! ## Descending UID sort

`[...searchResult].sort((a, b) => b - a)` sorts the UID array in
descending numeric order; it is embedded as an insertion sort. -/

/-- Insert a UID into a descending-ordered list. -/
def insertDesc (x : Nat) : List Nat → List Nat
  | [] => [x]
  | y :: ys => if y ≤ x then x :: y :: ys else y :: insertDesc x ys

/-- `sort((a, b) => b - a)`: descending numeric sort. -/
def sortDesc : List Nat → List Nat
  | [] => []
  | x :: xs => insertDesc x (sortDesc xs)

/-! ## Search query construction (`ImapClient.buildSearchQuery`) -/

/-- `SearchCriteria.searchIn`
(`'all' | 'subject' | 'from' | 'to' | 'body'`). -/
inductive SearchIn where
  | all
  | subject
  | from_
  | to_
  | body
deriving DecidableEq, Repr

/-- `SearchCriteria` (`imap-client.ts` lines 78–91). -/
structure SearchCriteria where
  query : Option String := none
  searchIn : Option SearchIn := none
  dateFrom : Option String := none
  dateTo : Option String := none
  unreadOnly : Option Bool := none
  flaggedOnly : Option Bool := none
deriving DecidableEq, Repr

/-- A single-field keyword match, the element type of the `or` array
built by `buildSearchQuery` for `searchIn = 'all'`. -/
inductive FieldQuery where
  | subject (q : String)
  | from_ (q : String)
  | to_ (q : String)
  | body (q : String)
deriving DecidableEq, Repr

/-- The imapflow search-query object assembled by `buildSearchQuery`:
a key is present (`some` / `true`) exactly when the source sets it.
`since`/`before` keep the date strings that the source wraps in
`new Date(...)`.  imapflow conjoins all present keys; the `or` key
disjoins its list. -/
structure SearchQuery where
  subject : Option String := none
  from_ : Option String := none
  to_ : Option String := none
  body : Option String := none
  orKey : Option (List FieldQuery) := none
  since : Option String := none
  before : Option String := none
  unseen : Bool := false
  flagged : Bool := false
  all : Bool := false
deriving DecidableEq, Repr

/-- `Object.keys(query).length === 0` for the assembled query: no key was
ever set. -/
def SearchQuery.isEmptyObj (q : SearchQuery) : Bool :=
  q.subject.isNone && q.from_.isNone && q.to_.isNone && q.body.isNone &&
    q.orKey.isNone && q.since.isNone && q.before.isNone &&
    !q.unseen && !q.flagged && !q.all

/-- `ImapClient.buildSearchQuery` (lines 478–530).  The keyword guard
`if (criteria.query)` and the date guards are JS truthiness on strings;
`criteria.searchIn ?? 'all'` defaults the scope; a final empty check sets
`all: true`. -/
def buildSearchQuery (criteria : SearchCriteria) : SearchQuery :=
  let q : SearchQuery := {}
  let kw := criteria.query.getD ""
  let orClauses := [FieldQuery.subject kw, FieldQuery.from_ kw,
                    FieldQuery.to_ kw, FieldQuery.body kw]
  let q :=
    if jsTruthyStr criteria.query then
      match criteria.searchIn.getD SearchIn.all with
      | .subject => { q with subject := some kw }
      | .from_ => { q with from_ := some kw }
      | .to_ => { q with to_ := some kw }
      | .body => { q with body := some kw }
      | .all => { q with orKey := some orClauses }
    else q
  let q := if jsTruthyStr criteria.dateFrom then { q with since := criteria.dateFrom } else q
  let q := if jsTruthyStr criteria.dateTo then { q with before := criteria.dateTo } else q
  let q := if jsTruthyBool criteria.unreadOnly then { q with unseen := true } else q
  let q := if jsTruthyBool criteria.flaggedOnly then { q with flagged := true } else q
  if q.isEmptyObj then { q with all := true } else q

/-! ## `listEmails` / `searchEmails` (pure search-sort-fetch pipeline)

The server side of one operation is abstracted as two oracles handed to
the definition: the UID list that `client.search` returned, and a fetch
oracle mapping each requested UID to its `FetchMessageObject`. -/

/-- The pure core of `ImapClient.listEmails` (lines 191–235) after the
`client.search` call: empty result short-circuits to `[]`; otherwise the
UIDs are sorted descending, truncated to `limit`, and each fetched
message is parsed to a summary.  The `for await` over `client.fetch`
is modelled as yielding one message per requested UID in request order
(the fetch oracle applied along the sorted list). -/
def listEmails (searchResult : List Nat) (limit : Nat)
    (fetch : Nat → FetchMessageObject)
    (previewOf : Option String → String) : List EmailSummary :=
  if searchResult.isEmpty then []
  else
    (((sortDesc searchResult).take limit).map
      (fun u => parseEmailSummary (fetch u) previewOf))

/-- The pure core of `ImapClient.searchEmails` (lines 277–313): builds
the query with `buildSearchQuery`, runs the abstract server search on it,
then sorts/truncates/fetches exactly as `listEmails`. -/
def searchEmails (criteria : SearchCriteria)
    (search : SearchQuery → List Nat) (limit : Nat)
    (fetch : Nat → FetchMessageObject)
    (previewOf : Option String → String) : List EmailSummary :=
  let searchResult := search (buildSearchQuery criteria)
  if searchResult.isEmpty then []
  else
    (((sortDesc searchResult).take limit).map
      (fun u => parseEmailSummary (fetch u) previewOf))

/-- The `list_emails` tool handler's call (`tools/list.ts` lines 82–87):
`limit: Math.min(limit ?? 20, 100)`. -/
def list_emails (searchResult : List Nat) (limit : Option Nat)
    (fetch : Nat → FetchMessageObject)
    (previewOf : Option String → String) : List EmailSummary :=
  listEmails searchResult (min (limit.getD 20) 100) fetch previewOf

/-- The `search_emails` tool handler's call (search tool, lines 79–92):
`limit: Math.min(limit ?? 50, 100)`. -/
def search_emails (criteria : SearchCriteria)
    (search : SearchQuery → List Nat) (limit : Option Nat)
    (fetch : Nat → FetchMessageObject)
    (previewOf : Option String → String) : List EmailSummary :=
  searchEmails criteria search (min (limit.getD 50) 100) fetch previewOf

/-! ## `getEmailDetail` and attachment extraction -/

/-- The fields of a mailparser `ParsedMail` the client reads. -/
structure ParsedAttachment where
  filename : Option String := none
  contentType : Option String := none
  size : Option Nat := none
  content : Option String := none
deriving DecidableEq, Repr

/-- mailparser result (`simpleParser`): text/html bodies plus
attachments.  `html` is `false | string` in mailparser; `none` models the
falsy case of `parsed.html || ''`. -/
structure ParsedMail where
  text : Option String := none
  html : Option String := none
  attachments : List ParsedAttachment := []
deriving DecidableEq, Repr

/-- `ImapClient.extractAttachments` (lines 643–662).  `att.content` is a
Buffer in the source, base64-encoded on request; the model keeps the
encoded string itself in `ParsedAttachment.content` and copies it when
`includeContent` is set and content is present. -/
def extractAttachments (attachments : List ParsedAttachment)
    (includeContent : Bool) : List AttachmentInfo :=
  attachments.map (fun att =>
    { filename := att.filename.getD "attachment"
      contentType := att.contentType.getD "application/octet-stream"
      size := att.size.getD 0
      content :=
        if includeContent ∧ att.content.isSome then att.content else none })

/-- `ImapClient.parseEmailDetail` (lines 571–599). -/
def parseEmailDetail (msg : FetchMessageObject) (parsed : ParsedMail)
    (includeAttachmentContent : Bool) : EmailDetail :=
  { uid := msg.uid
    from_ := match msg.envelope with
      | some e => formatAddress e.from_
      | none => ""
    to_ := match msg.envelope with
      | some e => formatAddress e.to_
      | none => ""
    cc := match msg.envelope with
      | some e => formatAddress e.cc
      | none => ""
    bcc := match msg.envelope with
      | some e => formatAddress e.bcc
      | none => ""
    subject := (msg.envelope.bind (fun e => e.subject)).getD "(无主题)"
    date := (msg.envelope.bind (fun e => e.date)).getD ""
    messageId := (msg.envelope.bind (fun e => e.messageId)).getD ""
    seen := msg.flags.contains "\\Seen"
    flagged := msg.flags.contains "\\Flagged"
    hasAttachments := parsed.attachments.length > 0
    preview := String.mk ((parsed.text.getD "").toList.take 200)
    textBody := parsed.text.getD ""
    htmlBody := parsed.html.getD ""
    attachments := extractAttachments parsed.attachments includeAttachmentContent }

/-- The pure core of `ImapClient.getEmailDetail` (lines 240–272): the
`fetchOne` outcome is the oracle argument (`none` models imapflow's
falsy not-found result), `simpleParser` is the parse oracle, which may
fail.  `if (!message || !message.source) return null` — mere absence of
the UID yields `ok none`; only a parser failure propagates as an
error. -/
def getEmailDetail (fetchOne : Option FetchMessageObject)
    (simpleParser : String → Except String ParsedMail)
    (includeAttachmentContent : Bool) : Except String (Option EmailDetail) :=
  match fetchOne with
  | none => Except.ok none
  | some message =>
    match message.source with
    | none => Except.ok none
    | some src =>
      match simpleParser src with
      | Except.error e => Except.error e
      | Except.ok parsed =>
        Except.ok (some (parseEmailDetail message parsed includeAttachmentContent))

/-! ## Connection and lock lifecycle (`withConnection`, `getMailboxLock`)

One operation's protocol interaction is modelled as an event trace:
connect / logout on the transport, lock acquire / release on the mailbox,
and opaque protocol commands in between.  A step that can throw is
parameterised by an optional error. -/

/-- Observable resource events of one `ImapClient` operation. -/
inductive ImapEvent where
  | connect
  | logout
  | lockAcquire (folder : String)
  | lockRelease (folder : String)
  | command (name : String)
deriving DecidableEq, Repr

/-- `ImapClient.withConnection` (lines 138–148): create the client,
`try { await connect(); return await operation(client) } finally { await
logout().catch(...) }`.  When `connect` throws (`connectFails = some e`)
the operation body never runs, but the `finally` still issues `logout`
(its own failure is swallowed by the `.catch`). -/
def withConnection (connectFails : Option String)
    (operation : List ImapEvent × Except String α) :
    List ImapEvent × Except String α :=
  match connectFails with
  | some e => ([ImapEvent.connect, ImapEvent.logout], Except.error e)
  | none =>
    (ImapEvent.connect :: operation.1 ++ [ImapEvent.logout], operation.2)

/-- The `const lock = await client.getMailboxLock(folder); try { body }
finally { lock.release() }` pattern shared by every mailbox-scoped
operation.  When acquisition itself throws nothing was acquired and
nothing is released; otherwise the release runs on success and on
failure of the body alike. -/
def withMailboxLock (folder : String) (lockFails : Option String)
    (body : List ImapEvent × Except String α) :
    List ImapEvent × Except String α :=
  match lockFails with
  | some e => ([], Except.error e)
  | none =>
    (ImapEvent.lockAcquire folder :: body.1 ++ [ImapEvent.lockRelease folder],
     body.2)

/-- The composite shape of every mailbox-scoped `ImapClient` operation
(`listEmails`, `searchEmails`, `getEmailDetail`, `markEmails`,
`flagEmail`, `deleteEmails`, `moveEmails`, `getAttachments`):
`withConnection` wrapping the mailbox lock wrapping a body that issues
only protocol commands. -/
def mailboxScopedOp (folder : String)
    (connectFails lockFails : Option String)
    (commands : List String) (result : Except String α) :
    List ImapEvent × Except String α :=
  withConnection connectFails
    (withMailboxLock folder lockFails (commands.map ImapEvent.command, result))

/-- Contribution of one event to the number of held mailbox locks. -/
def lockDelta : ImapEvent → Int
  | ImapEvent.lockAcquire _ => 1
  | ImapEvent.lockRelease _ => -1
  | _ => 0

/-- Contribution of one event to the number of open connections. -/
def connDelta : ImapEvent → Int
  | ImapEvent.connect => 1
  | ImapEvent.logout => -1
  | _ => 0

/-- Net number of mailbox locks still held after a trace. -/
def locksHeld (trace : List ImapEvent) : Int :=
  (trace.map lockDelta).sum

/-- Net number of transport connections still open after a trace. -/
def connectionsOpen (trace : List ImapEvent) : Int :=
  (trace.map connDelta).sum

/-! ## Batch mutation operations (`markEmails` / `deleteEmails` /
`moveEmails`)

`serverModified` is the number of messages the server actually changed;
the source ignores the protocol response entirely and reports
`uids.length`. -/

/-- Result record `{ success, count }`. -/
structure OpCount where
  success : Bool
  count : Nat
deriving DecidableEq, Repr

/-- `ImapClient.markEmails` (lines 318–339): one flags-add or
flags-remove command on the whole batch, then
`{ success: true, count: uids.length }`. -/
def markEmails (uids : List Nat) (folder : String) (markAsRead : Bool)
    (connectFails lockFails commandFails : Option String)
    (serverModified : Nat) : List ImapEvent × Except String OpCount :=
  let _ := serverModified
  let cmd := if markAsRead then "messageFlagsAdd" else "messageFlagsRemove"
  mailboxScopedOp folder connectFails lockFails [cmd]
    (match commandFails with
     | some e => Except.error e
     | none => Except.ok ⟨true, uids.length⟩)

/-- `ImapClient.deleteEmails` (lines 370–393): flags-add + purge when
permanent, a move to the account's resolved trash folder otherwise; the
reported count is `uids.length` either way. -/
def deleteEmails (uids : List Nat) (folder : String) (permanent : Bool)
    (trash_folder : String)
    (connectFails lockFails commandFails : Option String)
    (serverModified : Nat) : List ImapEvent × Except String OpCount :=
  let _ := serverModified
  let cmds :=
    if permanent then ["messageFlagsAdd", "messageDelete"]
    else ["messageMove:" ++ trash_folder]
  mailboxScopedOp folder connectFails lockFails cmds
    (match commandFails with
     | some e => Except.error e
     | none => Except.ok ⟨true, uids.length⟩)

/-- `ImapClient.moveEmails` (lines 398–414): one move command under a
lock on the source folder; the reported count is `uids.length`. -/
def moveEmails (uids : List Nat) (sourceFolder targetFolder : String)
    (connectFails lockFails commandFails : Option String)
    (serverModified : Nat) : List ImapEvent × Except String OpCount :=
  let _ := serverModified
  mailboxScopedOp sourceFolder connectFails lockFails
    ["messageMove:" ++ targetFolder]
    (match commandFails with
     | some e => Except.error e
     | none => Except.ok ⟨true, uids.length⟩)

/-! ## IMAP connection options (`ImapClient.createClient`) -/

/-- The `clientInfo` identification record sent for providers that
require an IMAP ID handshake. -/
structure ClientInfo where
  name : String
  version : String
  vendor : String
  supportUrl : String
deriving DecidableEq, Repr

/-- The imapflow constructor options assembled by
`ImapClient.createClient` (lines 106–133). -/
structure ImapFlowOptions where
  host : String
  port : Nat
  secure : Bool
  authUser : String
  authPass : String
  connectionTimeout : Nat
  greetingTimeout : Nat
  socketTimeout : Nat
  clientInfo : Option ClientInfo := none
deriving DecidableEq, Repr

/-- `ImapClient.createClient` (lines 106–133): host/port from the
resolved IMAP fields, `secure: true` hard-coded, fixed timeouts, and the
Thunderbird `clientInfo` exactly when `requiresImapId` is truthy. -/
def createClient (account : ResolvedAccount) : ImapFlowOptions :=
  { host := account.imap_server
    port := account.imap_port
    secure := true
    authUser := account.email
    authPass := account.password
    connectionTimeout := 30000
    greetingTimeout := 15000
    socketTimeout := 60000
    clientInfo :=
      if jsTruthyBool account.requiresImapId then
        some ⟨"Mozilla Thunderbird", "91.0", "Mozilla",
              "https://support.mozilla.org/"⟩
      else none }

/-! ## Composer (`core/smtp-client.ts`) -/

/-- `AttachmentInput` (`smtp-client.ts` lines 34–41): base64 content. -/
structure AttachmentInput where
  filename : String
  content : String
  contentType : Option String := none
deriving DecidableEq, Repr

/-- The `SendEmailOptions` payload (`smtp-client.ts` lines 8–29) as
composed by `replyEmail` / `forwardEmail` and handed to `sendEmail`. -/
structure SendEmailOptions where
  to_ : List String
  subject : String
  body : String
  isHtml : Bool := false
  cc : Option (List String) := none
  bcc : Option (List String) := none
  replyTo : Option String := none
  attachments : Option (List AttachmentInput) := none
  inReplyTo : Option String := none
  references : Option String := none
deriving DecidableEq, Repr

/-- The `original` record passed to `replyEmail` / `forwardEmail`
(from/to/cc formatted address strings, subject, threading id, date,
plain body). -/
structure OriginalEmail where
  from_ : String
  to_ : String
  cc : Option String := none
  subject : String
  messageId : String := ""
  date : String := ""
  body : String := ""
deriving DecidableEq, Repr

/-- The first match of the regex `/<([^>]+)>/`: scanning left to right,
a `'<'` matches when a later `'>'` exists with at least one character in
between (none of which can be `'>'`, by choice of the first such);
otherwise scanning resumes at the next position. -/
def findAngleCapture : List Char → Option (List Char)
  | [] => none
  | c :: rest =>
    if c = '<' then
      let cap := rest.takeWhile (fun ch => ch ≠ '>')
      if cap.length < rest.length ∧ cap ≠ [] then some cap
      else findAngleCapture rest
    else findAngleCapture rest

/-- `SmtpClient.extractEmailAddress` (lines 269–274): the angle-bracket
capture when the regex matches, else the whole string trimmed. -/
def extractEmailAddress (address : String) : String :=
  match findAngleCapture address.toList with
  | some cap => String.mk cap
  | none => jsTrim address

/-- `SmtpClient.formatQuotedReply` (lines 294–311). -/
def formatQuotedReply (original : OriginalEmail) (replyBody : String)
    (isHtml : Bool) : String :=
  let bodyLines := jsSplit original.body '\n'
  let quotedLines := joinSep "\n" (bodyLines.map (fun line => "> " ++ line))
  let header := "On " ++ original.date ++ ", " ++ original.from_ ++ " wrote:"
  if isHtml then
    replyBody ++ "<br><br><blockquote>" ++ header ++ "<br>" ++
      joinSep "<br>" bodyLines ++ "</blockquote>"
  else
    replyBody ++ "\n\n" ++ header ++ "\n" ++ quotedLines

/-- `SmtpClient.formatForwardedMessage` (lines 316–339).  The `Cc` line
and the leading comment are added under JS truthiness. -/
def formatForwardedMessage (original : OriginalEmail)
    (comment : Option String) : String :=
  let lines := ["---------- Forwarded message ----------",
    "From: " ++ original.from_,
    "Date: " ++ original.date,
    "Subject: " ++ original.subject,
    "To: " ++ original.to_]
  let lines :=
    if jsTruthyStr original.cc then lines ++ ["Cc: " ++ original.cc.getD ""]
    else lines
  let lines := lines ++ ["", original.body]
  if jsTruthyStr comment then comment.getD "" ++ "\n\n" ++ joinSep "\n" lines
  else joinSep "\n" lines

/-- `SmtpClient.replyEmail` (lines 148–203), up to the payload handed to
`sendEmail`.  `accountEmail` is `this.account.email`.  The primary
recipient is the address extracted from the original `From`; with
`replyAll` the original To/Cc entries are split on commas, trimmed,
extracted, and appended to `cc` when non-empty, different from the
acting account's address and not already the primary recipient.  Subject
gets `Re:` unless the lowercased subject already starts with it. -/
def replyEmail (accountEmail : String) (original : OriginalEmail)
    (body : String) (replyAll : Bool) (isHtml : Bool) : SendEmailOptions :=
  let to_ := [extractEmailAddress original.from_]
  let cc :=
    if replyAll then
      let originalTo := (jsSplit original.to_ ',').map jsTrim
      let originalCc :=
        match original.cc with
        | some c => (jsSplit c ',').map jsTrim
        | none => []
      (originalTo ++ originalCc).foldl
        (fun acc addr =>
          let email := extractEmailAddress addr
          if email ≠ "" ∧ email ≠ accountEmail ∧ email ∉ to_ then
            acc ++ [email]
          else acc) []
    else []
  let subject :=
    if jsStartsWith (jsToLower original.subject) "re:" then original.subject
    else "Re: " ++ original.subject
  { to_ := to_
    cc := if cc.length > 0 then some cc else none
    subject := subject
    body := formatQuotedReply original body isHtml
    isHtml := isHtml
    inReplyTo := some original.messageId
    references := some original.messageId }

/-- `SmtpClient.forwardEmail` (lines 208–243), up to the payload handed
to `sendEmail`.  Subject gets `Fwd:` unless the lowercased subject
already starts with it; the body is the fixed forwarded-message block,
always plain text. -/
def forwardEmail (original : OriginalEmail) (to_ : List String)
    (comment : Option String)
    (attachments : Option (List AttachmentInput)) : SendEmailOptions :=
  let subject :=
    if jsStartsWith (jsToLower original.subject) "fwd:" then original.subject
    else "Fwd: " ++ original.subject
  { to_ := to_
    subject := subject
    body := formatForwardedMessage original comment
    isHtml := false
    attachments := attachments }

/-! # Theorems -/

/-- C10: the IMAP connection options always set implicit TLS
(`secure: true`) regardless of the account, and the options are a
function of the IMAP-side fields only — two resolved accounts differing
only in SMTP fields yield identical options, so no account field can
disable TLS on the IMAP side. -/
theorem createClient_always_tls (account : ResolvedAccount)
    (s : String) (p : Nat) (b : Bool) :
    (createClient account).secure = true ∧
      createClient
        { account with smtp_server := s, smtp_port := p, smtp_secure := b } =
        createClient account :=
  ⟨rfl, rfl⟩

/-- C8: every mailbox-scoped operation (`withConnection` wrapping the
mailbox lock wrapping protocol commands) ends every exit path — success,
connect failure, lock-acquisition failure, or an exception from the body
— with no mailbox lock held and no connection open, and when the
connection was attempted the final event is the logout. -/
theorem mailboxScopedOp_releases_resources {α : Type}
    (folder : String) (connectFails lockFails : Option String)
    (commands : List String) (result : Except String α) :
    locksHeld (mailboxScopedOp folder connectFails lockFails commands result).1 = 0 ∧
    connectionsOpen (mailboxScopedOp folder connectFails lockFails commands result).1 = 0 ∧
    (mailboxScopedOp folder connectFails lockFails commands result).1.getLast? =
      some ImapEvent.logout := by
  have hcmdLock : ∀ cs : List String,
      ((cs.map ImapEvent.command).map lockDelta).sum = 0 := by
    intro cs
    apply List.sum_eq_zero
    intro x hx
    simp only [List.map_map, List.mem_map] at hx
    obtain ⟨c, _, rfl⟩ := hx
    rfl
  have hcmdConn : ∀ cs : List String,
      ((cs.map ImapEvent.command).map connDelta).sum = 0 := by
    intro cs
    apply List.sum_eq_zero
    intro x hx
    simp only [List.map_map, List.mem_map] at hx
    obtain ⟨c, _, rfl⟩ := hx
    rfl
  cases connectFails with
  | some e =>
    refine ⟨rfl, rfl, ?_⟩
    rfl
  | none =>
    cases lockFails with
    | some e =>
      refine ⟨rfl, rfl, ?_⟩
      rfl
    | none =>
      refine ⟨?_, ?_, ?_⟩
      · show locksHeld (ImapEvent.connect ::
          (ImapEvent.lockAcquire folder :: commands.map ImapEvent.command ++
            [ImapEvent.lockRelease folder]) ++ [ImapEvent.logout]) = 0
        simp only [locksHeld, List.map_cons, List.map_append, List.sum_cons,
          List.sum_append, List.map_cons, List.sum_cons, List.map_nil,
          List.sum_nil, hcmdLock]
        rfl
      · show connectionsOpen (ImapEvent.connect ::
          (ImapEvent.lockAcquire folder :: commands.map ImapEvent.command ++
            [ImapEvent.lockRelease folder]) ++ [ImapEvent.logout]) = 0
        simp only [connectionsOpen, List.map_cons, List.map_append,
          List.sum_cons, List.sum_append, List.map_nil, List.sum_nil,
          hcmdConn]
        rfl
      · show (ImapEvent.connect ::
          (ImapEvent.lockAcquire folder :: commands.map ImapEvent.command ++
            [ImapEvent.lockRelease folder]) ++ [ImapEvent.logout]).getLast? =
            some ImapEvent.logout
        rw [← List.cons_append]
        exact List.getLast?_concat _

/-- C9: for every successful `markEmails`, `deleteEmails` or
`moveEmails`, the reported count equals the length of the supplied UID
list; it is computed from the input and is the same for every value of
the server's own modification report (`serverModified`). -/
theorem mutation_count_from_input (uids : List Nat)
    (folder sourceFolder targetFolder trash : String)
    (markAsRead permanent : Bool)
    (connectFails lockFails commandFails : Option String)
    (serverModified : Nat) :
    (∀ r, (markEmails uids folder markAsRead
        connectFails lockFails commandFails serverModified).2 = Except.ok r →
      r.count = uids.length) ∧
    (∀ r, (deleteEmails uids folder permanent trash
        connectFails lockFails commandFails serverModified).2 = Except.ok r →
      r.count = uids.length) ∧
    (∀ r, (moveEmails uids sourceFolder targetFolder
        connectFails lockFails commandFails serverModified).2 = Except.ok r →
      r.count = uids.length) := by
  refine ⟨?_, ?_, ?_⟩ <;>
    · intro r h
      cases connectFails <;> cases lockFails <;> cases commandFails <;>
        simp_all [markEmails, deleteEmails, moveEmails, mailboxScopedOp,
          withConnection, withMailboxLock]
      obtain rfl := h.symm
      rfl

/-- Witness for C9 at a concrete batch of two UIDs with a server that
reports only one modification: the count is still 2. -/
theorem mutation_count_from_input_witness :
    ∃ r, (markEmails [4, 7] "INBOX" true none none none 1).2 = Except.ok r ∧
      r.count = 2 :=
  ⟨⟨true, 2⟩, rfl,
    (mutation_count_from_input [4, 7] "INBOX" "src" "dst" "Trash" true false
      none none none 1).1 ⟨true, 2⟩ rfl⟩

/-- C7: `getEmailDetail` yields `ok none` (null) both when the fetch
found no message and when the message came back without source — absence
of the UID is never an error; an error arises only when a fetched source
fails to parse. -/
theorem getEmailDetail_absence_is_null
    (simpleParser : String → Except String ParsedMail)
    (includeAttachmentContent : Bool) :
    getEmailDetail none simpleParser includeAttachmentContent =
      Except.ok none ∧
    (∀ m : FetchMessageObject, m.source = none →
      getEmailDetail (some m) simpleParser includeAttachmentContent =
        Except.ok none) ∧
    (∀ (fetchOne : Option FetchMessageObject) (e : String),
      getEmailDetail fetchOne simpleParser includeAttachmentContent =
        Except.error e →
      ∃ m src, fetchOne = some m ∧ m.source = some src ∧
        simpleParser src = Except.error e) := by
  refine ⟨rfl, ?_, ?_⟩
  · intro m hm
    simp [getEmailDetail, hm]
  · intro fetchOne e h
    cases fetchOne with
    | none => exact absurd h (by simp [getEmailDetail])
    | some m =>
      cases hs : m.source with
      | none =>
        refine absurd h ?_
        simp [getEmailDetail, hs]
      | some src =>
        cases hp : simpleParser src with
        | error e2 =>
          have he : e2 = e := by
            simp only [getEmailDetail, hs, hp] at h
            exact (Except.error.inj h)
          exact ⟨m, src, rfl, hs, by rw [hp, he]⟩
        | ok parsed =>
          refine absurd h ?_
          simp [getEmailDetail, hs, hp]

/-- Witness for C7: a fetch that found no message and a fetched message
with no source both produce `ok none` under a parser that would succeed. -/
theorem getEmailDetail_absence_is_null_witness :
    getEmailDetail none (fun _ => Except.ok {}) false = Except.ok none ∧
      getEmailDetail (some { uid := 9 }) (fun _ => Except.ok {}) false =
        Except.ok none :=
  ⟨(getEmailDetail_absence_is_null (fun _ => Except.ok {}) false).1,
    (getEmailDetail_absence_is_null (fun _ => Except.ok {}) false).2.1
      { uid := 9 } rfl⟩

/-- C5: the reply subject is `"Re: " ++ s` exactly when the lowercased
original subject does not already start with `"re:"`, and is `s`
unchanged otherwise; the forward subject behaves the same with
`"fwd:"`. -/
theorem subject_prefixing (accountEmail body : String)
    (original : OriginalEmail) (replyAll isHtml : Bool)
    (recipients : List String) (comment : Option String)
    (atts : Option (List AttachmentInput)) :
    ((jsStartsWith (jsToLower original.subject) "re:" = false →
        (replyEmail accountEmail original body replyAll isHtml).subject =
          "Re: " ++ original.subject) ∧
      (jsStartsWith (jsToLower original.subject) "re:" = true →
        (replyEmail accountEmail original body replyAll isHtml).subject =
          original.subject)) ∧
    ((jsStartsWith (jsToLower original.subject) "fwd:" = false →
        (forwardEmail original recipients comment atts).subject =
          "Fwd: " ++ original.subject) ∧
      (jsStartsWith (jsToLower original.subject) "fwd:" = true →
        (forwardEmail original recipients comment atts).subject =
          original.subject)) := by
  refine ⟨⟨?_, ?_⟩, ⟨?_, ?_⟩⟩ <;> intro h <;>
    simp [replyEmail, forwardEmail, h]

/-- Witness for C5 at the spec's own examples: replying to `"Hello"`
gives `"Re: Hello"`, replying to `"Re: Hello"` leaves it unchanged, and
forwarding `"Hello"` gives `"Fwd: Hello"`. -/
theorem subject_prefixing_witness :
    (replyEmail "me@a.com" { from_ := "x@y.com", to_ := "", subject := "Hello" }
        "b" false false).subject = "Re: Hello" ∧
    (replyEmail "me@a.com" { from_ := "x@y.com", to_ := "", subject := "Re: Hello" }
        "b" false false).subject = "Re: Hello" ∧
    (forwardEmail { from_ := "x@y.com", to_ := "", subject := "Hello" }
        ["z@w.com"] none none).subject = "Fwd: Hello" :=
  ⟨(subject_prefixing "me@a.com" "b"
      { from_ := "x@y.com", to_ := "", subject := "Hello" } false false
      ["z@w.com"] none none).1.1 (by decide),
    (subject_prefixing "me@a.com" "b"
      { from_ := "x@y.com", to_ := "", subject := "Re: Hello" } false false
      ["z@w.com"] none none).1.2 (by decide),
    (subject_prefixing "me@a.com" "b"
      { from_ := "x@y.com", to_ := "", subject := "Hello" } false false
      ["z@w.com"] none none).2.1 (by decide)⟩

/-- C3: with no overrides, a built-in provider resolves to exactly its
preset entry (non-empty hosts and trash folder, positive ports); a
`custom` account missing `imap_server` (or `smtp_server`) makes
`resolveAccount` fail; a `custom` account with both hosts present falls
back to the hard defaults 993/465, `secure = true`, `"Trash"` for the
absent optional fields. -/
theorem resolveAccount_provider_resolution (a : Account) :
    (∀ preset, EMAIL_PROVIDERS a.provider = some preset →
      a.imap_server = none → a.imap_port = none → a.smtp_server = none →
      a.smtp_port = none → a.smtp_secure = none → a.trash_folder = none →
      ∃ ra, resolveAccount a = Except.ok ra ∧
        ra.imap_server = preset.imap_server ∧ ra.imap_port = preset.imap_port ∧
        ra.smtp_server = preset.smtp_server ∧ ra.smtp_port = preset.smtp_port ∧
        ra.trash_folder = preset.trash_folder ∧
        ra.imap_server ≠ "" ∧ ra.smtp_server ≠ "" ∧ ra.trash_folder ≠ "" ∧
        0 < ra.imap_port ∧ 0 < ra.smtp_port) ∧
    (a.provider = Provider.custom → a.imap_server = none →
      ∃ e, resolveAccount a = Except.error e) ∧
    (a.provider = Provider.custom → a.smtp_server = none →
      ∃ e, resolveAccount a = Except.error e) ∧
    (∀ hi hs, a.provider = Provider.custom →
      a.imap_server = some hi → hi ≠ "" → a.smtp_server = some hs → hs ≠ "" →
      a.imap_port = none → a.smtp_port = none → a.smtp_secure = none →
      a.trash_folder = none →
      resolveAccount a = Except.ok
        { id := a.id, email := a.email, password := a.password,
          provider := Provider.custom, imap_server := hi, imap_port := 993,
          smtp_server := hs, smtp_port := 465, smtp_secure := true,
          trash_folder := "Trash", requiresImapId := none }) := by
  refine ⟨?_, ?_, ?_, ?_⟩
  · intro preset hp h1 h2 h3 h4 h5 h6
    have hne : preset.imap_server ≠ "" ∧ preset.smtp_server ≠ "" ∧
        preset.trash_folder ≠ "" ∧ 0 < preset.imap_port ∧
        0 < preset.smtp_port := by
      cases hprov : a.provider
      case custom => rw [hprov] at hp; exact Option.noConfusion hp
      all_goals
        rw [hprov] at hp
        simp only [EMAIL_PROVIDERS, Option.some.injEq] at hp
        subst hp
        decide
    refine ⟨⟨a.id, a.email, a.password, a.provider,
        preset.imap_server, preset.imap_port, preset.smtp_server,
        preset.smtp_port, preset.smtp_secure, preset.trash_folder,
        some preset.requiresImapId⟩,
      ?_, rfl, rfl, rfl, rfl, rfl, hne.1, hne.2.1, hne.2.2.1,
      hne.2.2.2.1, hne.2.2.2.2⟩
    simp only [resolveAccount]
    rw [hp]
    simp [h1, h2, h3, h4, h5, h6]
  · intro hc h1
    refine ⟨"Account \"" ++ a.id ++
      "\" uses custom provider but missing server configuration", ?_⟩
    have hp : EMAIL_PROVIDERS a.provider = none := by rw [hc]; rfl
    simp only [resolveAccount]
    rw [hp]
    simp [h1, jsTruthyStr]
  · intro hc h3
    refine ⟨"Account \"" ++ a.id ++
      "\" uses custom provider but missing server configuration", ?_⟩
    have hp : EMAIL_PROVIDERS a.provider = none := by rw [hc]; rfl
    simp only [resolveAccount]
    rw [hp]
    simp [h3, jsTruthyStr]
  · intro hi hs hc h1 h2 h3 h4 h5 h6 h7 h8
    have hp : EMAIL_PROVIDERS a.provider = none := by rw [hc]; rfl
    simp only [resolveAccount]
    rw [hp]
    simp [h1, h2, h3, h4, h5, h6, h7, h8, hc, jsTruthyStr]

/-- Witness for C3: a bare gmail account resolves to the gmail preset; a
bare custom account fails; a custom account with hosts gets the hard
defaults. -/
theorem resolveAccount_provider_resolution_witness :
    (∃ ra, resolveAccount
        { id := "g", email := "g@gmail.com", password := "p",
          provider := Provider.gmail } = Except.ok ra ∧
      ra.imap_server = "imap.gmail.com") ∧
    (∃ e, resolveAccount
        { id := "c", email := "c@x.com", password := "p",
          provider := Provider.custom } = Except.error e) ∧
    resolveAccount
        { id := "c2", email := "c@x.com", password := "p",
          provider := Provider.custom, imap_server := some "imap.x.com",
          smtp_server := some "smtp.x.com" } =
      Except.ok
        { id := "c2", email := "c@x.com", password := "p",
          provider := Provider.custom, imap_server := "imap.x.com",
          imap_port := 993, smtp_server := "smtp.x.com", smtp_port := 465,
          smtp_secure := true, trash_folder := "Trash",
          requiresImapId := none } := by
  refine ⟨?_, ?_, ?_⟩
  · obtain ⟨ra, hok, him, -⟩ :=
      (resolveAccount_provider_resolution
        { id := "g", email := "g@gmail.com", password := "p",
          provider := Provider.gmail }).1
        ⟨"imap.gmail.com", 993, "smtp.gmail.com", 587, false,
          "[Gmail]/Trash", false⟩ rfl rfl rfl rfl rfl rfl rfl
    exact ⟨ra, hok, him⟩
  · exact (resolveAccount_provider_resolution
      { id := "c", email := "c@x.com", password := "p",
        provider := Provider.custom }).2.1 rfl rfl
  · exact (resolveAccount_provider_resolution
      { id := "c2", email := "c@x.com", password := "p",
        provider := Provider.custom, imap_server := some "imap.x.com",
        smtp_server := some "smtp.x.com" }).2.2.2
      "imap.x.com" "smtp.x.com" rfl rfl (by decide) rfl (by decide)
      rfl rfl rfl rfl

/-- C6: `resolveAccount` is idempotent — whenever it succeeds, resolving
the already-resolved account (viewed back at the `Account` type, all
overrides populate) succeeds with the identical `ResolvedAccount`. -/
theorem resolveAccount_idempotent (a : Account) (ra : ResolvedAccount)
    (h : resolveAccount a = Except.ok ra) :
    resolveAccount ra.toAccount = Except.ok ra := by
  cases hp : EMAIL_PROVIDERS a.provider with
  | some preset =>
    simp only [resolveAccount] at h
    rw [hp] at h
    obtain rfl := (Except.ok.inj h)
    simp only [resolveAccount, ResolvedAccount.toAccount]
    rw [hp]
    simp
  | none =>
    simp only [resolveAccount] at h
    rw [hp] at h
    cases him : a.imap_server with
    | none => simp [him, jsTruthyStr] at h
    | some si =>
      by_cases hsi : si = ""
      · simp [him, hsi, jsTruthyStr] at h
      · cases hsm : a.smtp_server with
        | none => simp [hsm, jsTruthyStr] at h
        | some ss =>
          by_cases hss : ss = ""
          · simp [hsm, hss, jsTruthyStr] at h
          · simp [him, hsm, hsi, hss, jsTruthyStr] at h
            obtain rfl := h.symm
            simp only [resolveAccount, ResolvedAccount.toAccount]
            rw [hp]
            simp [jsTruthyStr, hsi, hss]

/-- Witness for C6 at a concrete qq account with one override. -/
theorem resolveAccount_idempotent_witness :
    resolveAccount
      (ResolvedAccount.toAccount
        { id := "q", email := "q@qq.com", password := "p",
          provider := Provider.qq, imap_server := "imap.qq.com",
          imap_port := 993, smtp_server := "smtp.qq.com", smtp_port := 465,
          smtp_secure := true, trash_folder := "Junk",
          requiresImapId := some false }) =
      Except.ok
        { id := "q", email := "q@qq.com", password := "p",
          provider := Provider.qq, imap_server := "imap.qq.com",
          imap_port := 993, smtp_server := "smtp.qq.com", smtp_port := 465,
          smtp_secure := true, trash_folder := "Junk",
          requiresImapId := some false } :=
  resolveAccount_idempotent
    { id := "q", email := "q@qq.com", password := "p",
      provider := Provider.qq, trash_folder := some "Junk" } _ rfl

/-- Membership in the reply-all cc accumulator: every element either was
already in the accumulator or passed the filter (non-empty, not the
acting account's address, not a primary recipient). -/
theorem mem_replyCcFold (accountEmail : String) (primary : List String)
    (addrs : List String) (acc : List String) (e : String)
    (he : e ∈ addrs.foldl
      (fun acc addr =>
        if extractEmailAddress addr ≠ "" ∧
            extractEmailAddress addr ≠ accountEmail ∧
            extractEmailAddress addr ∉ primary then
          acc ++ [extractEmailAddress addr]
        else acc) acc) :
    e ∈ acc ∨ (e ≠ "" ∧ e ≠ accountEmail ∧ e ∉ primary) := by
  induction addrs generalizing acc with
  | nil => exact Or.inl he
  | cons a as ih =>
    simp only [List.foldl_cons] at he
    rcases ih _ he with h | h
    · by_cases hc : extractEmailAddress a ≠ "" ∧
          extractEmailAddress a ≠ accountEmail ∧
          extractEmailAddress a ∉ primary
      · rw [if_pos hc] at h
        rcases List.mem_append.mp h with h2 | h2
        · exact Or.inl h2
        · obtain rfl := List.mem_singleton.mp h2
          exact Or.inr hc
      · rw [if_neg hc] at h
        exact Or.inl h
    · exact Or.inr h

/-- Counterexample to C2 as stated: replying (replyAll) to a message
whose `From` is the acting account's own address puts that address into
the `to` recipients, so the combined to/cc set does contain the acting
account's own email address. -/
theorem replyAll_self_counterexample :
    "me@a.com" ∈ (replyEmail "me@a.com"
      { from_ := "me@a.com", to_ := "alice@b.com", subject := "Hi" }
      "r" true false).to_ ++
      ((replyEmail "me@a.com"
        { from_ := "me@a.com", to_ := "alice@b.com", subject := "Hi" }
        "r" true false).cc.getD []) := by decide

/-- C2 (amended): with `replyAll = true` the `to` list is exactly the
address extracted from the original `From` (which can be the acting
account's own address), and every address in the cc list is non-empty,
differs from the acting account's own address, and is not the primary
recipient. -/
theorem replyAll_cc_exclusions (accountEmail : String)
    (original : OriginalEmail) (body : String) (isHtml : Bool) :
    (replyEmail accountEmail original body true isHtml).to_ =
      [extractEmailAddress original.from_] ∧
    (∀ l, (replyEmail accountEmail original body true isHtml).cc = some l →
      ∀ e ∈ l, e ≠ accountEmail ∧
        e ∉ (replyEmail accountEmail original body true isHtml).to_) := by
  refine ⟨rfl, ?_⟩
  intro l hl e he
  simp only [replyEmail, if_true] at hl
  have hx : ∀ (P : Prop) [Decidable P] (X : List String),
      (if P then some X else none) = some l → l = X := by
    intro P inst X heq
    split at heq
    · exact (Option.some.inj heq).symm
    · cases heq
  obtain rfl := hx _ _ hl
  have hmem := mem_replyCcFold accountEmail
    [extractEmailAddress original.from_]
    (((jsSplit original.to_ ',').map jsTrim) ++
      (match original.cc with
       | some c => (jsSplit c ',').map jsTrim
       | none => [])) [] e he
  rcases hmem with h | h
  · exact absurd h (List.not_mem_nil e)
  · exact ⟨h.2.1, h.2.2⟩

/-- Witness for the amended C2: replying-all as `me@a.com` to a message
from `boss@c.com` addressed to `alice@b.com, me@a.com` — the cc keeps
only `alice@b.com`, which is neither the acting account nor the primary
recipient. -/
theorem replyAll_cc_exclusions_witness :
    (replyEmail "me@a.com"
      { from_ := "boss@c.com", to_ := "alice@b.com, me@a.com",
        subject := "Hi" } "r" true false).cc = some ["alice@b.com"] ∧
    "alice@b.com" ≠ "me@a.com" ∧
    "alice@b.com" ∉ (replyEmail "me@a.com"
      { from_ := "boss@c.com", to_ := "alice@b.com, me@a.com",
        subject := "Hi" } "r" true false).to_ := by
  refine ⟨by decide, ?_, ?_⟩
  · exact ((replyAll_cc_exclusions "me@a.com"
      { from_ := "boss@c.com", to_ := "alice@b.com, me@a.com",
        subject := "Hi" } "r" false).2 ["alice@b.com"] (by decide)
      "alice@b.com" (by decide)).1
  · exact ((replyAll_cc_exclusions "me@a.com"
      { from_ := "boss@c.com", to_ := "alice@b.com, me@a.com",
        subject := "Hi" } "r" false).2 ["alice@b.com"] (by decide)
      "alice@b.com" (by decide)).2

/-! ### Sorting lemmas for the descending UID sort -/

theorem insertDesc_perm (x : Nat) (l : List Nat) :
    (insertDesc x l).Perm (x :: l) := by
  induction l with
  | nil => exact List.Perm.refl _
  | cons y ys ih =>
    unfold insertDesc
    split
    · exact List.Perm.refl _
    · exact (ih.cons y).trans (List.Perm.swap x y ys)

theorem sortDesc_perm (l : List Nat) : (sortDesc l).Perm l := by
  induction l with
  | nil => exact List.Perm.refl _
  | cons x xs ih => exact (insertDesc_perm x (sortDesc xs)).trans (ih.cons x)

theorem pairwise_ge_insertDesc (x : Nat) (l : List Nat)
    (h : l.Pairwise (· ≥ ·)) : (insertDesc x l).Pairwise (· ≥ ·) := by
  induction l with
  | nil => simp [insertDesc]
  | cons y ys ih =>
    rw [List.pairwise_cons] at h
    obtain ⟨hy, hys⟩ := h
    unfold insertDesc
    split
    · next hyx =>
      refine List.Pairwise.cons ?_ (List.Pairwise.cons hy hys)
      intro b hb
      rcases List.mem_cons.mp hb with rfl | hb2
      · exact hyx
      · exact le_trans (hy b hb2) hyx
    · next hyx =>
      refine List.Pairwise.cons ?_ (ih hys)
      intro b hb
      rcases List.mem_cons.mp (((insertDesc_perm x ys).mem_iff).mp hb)
        with hb2 | hb2
      · subst hb2
        exact le_of_not_le hyx
      · exact hy b hb2

theorem sortDesc_pairwise_ge (l : List Nat) :
    (sortDesc l).Pairwise (· ≥ ·) := by
  induction l with
  | nil => simp [sortDesc]
  | cons x xs ih => exact pairwise_ge_insertDesc x _ ih

theorem sortDesc_pairwise_gt (l : List Nat) (h : l.Nodup) :
    (sortDesc l).Pairwise (· > ·) := by
  have hnd : (sortDesc l).Nodup := ((sortDesc_perm l).nodup_iff).mpr h
  exact ((sortDesc_pairwise_ge l).and hnd).imp
    (fun hab => lt_of_le_of_ne hab.1 (Ne.symm hab.2))

/-- Descending order and truncation for the shared search-sort-fetch
pipeline of `listEmails` / `searchEmails`, for any distinct UID set the
server search returned and any fetch oracle that answers each UID with a
message carrying that UID. -/
theorem listEmails_desc_core (uids : List Nat) (h : uids.Nodup)
    (limit : Nat) (fetch : Nat → FetchMessageObject)
    (hf : ∀ u, (fetch u).uid = u) (previewOf : Option String → String) :
    ((listEmails uids limit fetch previewOf).map
      (fun s => s.uid)).Pairwise (· > ·) ∧
    (listEmails uids limit fetch previewOf).length ≤ limit := by
  have huid : ∀ u, (parseEmailSummary (fetch u) previewOf).uid = u :=
    fun u => hf u
  unfold listEmails
  split
  · simp
  · constructor
    · rw [List.map_map, List.pairwise_map]
      have htake : ((sortDesc uids).take limit).Pairwise (· > ·) :=
        List.Pairwise.sublist (List.take_sublist limit (sortDesc uids))
          (sortDesc_pairwise_gt uids h)
      exact htake.imp (fun hab => by
        rw [Function.comp_apply, Function.comp_apply, huid, huid]
        exact hab)
    · rw [List.length_map, List.length_take]
      exact min_le_left _ _

/-- C1: the tool-level `list_emails` and `search_emails` return
summaries in strictly descending UID order, truncated to at most
`min(limit, 100)` entries (`Math.min(limit ?? 20, 100)` for list,
`Math.min(limit ?? 50, 100)` for search). -/
theorem listSearch_desc_truncated (searchResult : List Nat)
    (hnd : searchResult.Nodup) (criteria : SearchCriteria)
    (search : SearchQuery → List Nat)
    (hs : (search (buildSearchQuery criteria)).Nodup)
    (fetch : Nat → FetchMessageObject) (hf : ∀ u, (fetch u).uid = u)
    (previewOf : Option String → String) (limit : Option Nat) :
    (((list_emails searchResult limit fetch previewOf).map
        (fun s => s.uid)).Pairwise (· > ·) ∧
      (list_emails searchResult limit fetch previewOf).length ≤
        min (limit.getD 20) 100) ∧
    (((search_emails criteria search limit fetch previewOf).map
        (fun s => s.uid)).Pairwise (· > ·) ∧
      (search_emails criteria search limit fetch previewOf).length ≤
        min (limit.getD 50) 100) := by
  refine ⟨?_, ?_⟩
  · exact listEmails_desc_core searchResult hnd
      (min (limit.getD 20) 100) fetch hf previewOf
  · exact listEmails_desc_core (search (buildSearchQuery criteria)) hs
      (min (limit.getD 50) 100) fetch hf previewOf

/-- Witness for C1 at the concrete UID set `[1, 3, 2]` with limit 2. -/
theorem listSearch_desc_truncated_witness :
    (((list_emails [1, 3, 2] (some 2) (fun u => { uid := u })
        (fun _ => "")).map (fun s => s.uid)).Pairwise (· > ·)) ∧
    (list_emails [1, 3, 2] (some 2) (fun u => { uid := u })
        (fun _ => "")).length ≤ min 2 100 := by
  have h := listSearch_desc_truncated [1, 3, 2] (by decide) {}
    (fun _ => [5, 4]) (by decide) (fun u => { uid := u }) (fun u => rfl)
    (fun _ => "") (some 2)
  exact ⟨h.1.1, h.1.2⟩

/-- A truthy optional string is present (`some`), so comparing it with
`none` is false; used to discharge the final empty-object test. -/
theorem jsTruthyStr_eq_none_false {o : Option String}
    (h : jsTruthyStr o = true) : (o = none) = False := by
  cases o with
  | none => simp [jsTruthyStr] at h
  | some s => simp

/-- C4: `buildSearchQuery` maps a non-empty keyword with a concrete
scope to exactly that one field; scope `all` or absent to the OR of the
keyword over subject/from/to/body; `dateFrom`/`dateTo` to
`since`/`before`; `unreadOnly`/`flaggedOnly` to `unseen`/`flagged`;
all supplied predicates coexist in the one conjunction record; and empty
criteria yield the match-all query. -/
theorem buildSearchQuery_spec (c : SearchCriteria) :
    (∀ kw, c.query = some kw → kw ≠ "" →
      ((c.searchIn = some SearchIn.subject →
          (buildSearchQuery c).subject = some kw ∧
          (buildSearchQuery c).from_ = none ∧
          (buildSearchQuery c).to_ = none ∧
          (buildSearchQuery c).body = none ∧
          (buildSearchQuery c).orKey = none) ∧
        (c.searchIn = some SearchIn.from_ →
          (buildSearchQuery c).from_ = some kw ∧
          (buildSearchQuery c).subject = none ∧
          (buildSearchQuery c).to_ = none ∧
          (buildSearchQuery c).body = none ∧
          (buildSearchQuery c).orKey = none) ∧
        (c.searchIn = some SearchIn.to_ →
          (buildSearchQuery c).to_ = some kw ∧
          (buildSearchQuery c).subject = none ∧
          (buildSearchQuery c).from_ = none ∧
          (buildSearchQuery c).body = none ∧
          (buildSearchQuery c).orKey = none) ∧
        (c.searchIn = some SearchIn.body →
          (buildSearchQuery c).body = some kw ∧
          (buildSearchQuery c).subject = none ∧
          (buildSearchQuery c).from_ = none ∧
          (buildSearchQuery c).to_ = none ∧
          (buildSearchQuery c).orKey = none) ∧
        ((c.searchIn = none ∨ c.searchIn = some SearchIn.all) →
          (buildSearchQuery c).orKey =
            some [FieldQuery.subject kw, FieldQuery.from_ kw,
                  FieldQuery.to_ kw, FieldQuery.body kw] ∧
          (buildSearchQuery c).subject = none ∧
          (buildSearchQuery c).from_ = none ∧
          (buildSearchQuery c).to_ = none ∧
          (buildSearchQuery c).body = none))) ∧
    ((buildSearchQuery c).since =
        (if jsTruthyStr c.dateFrom then c.dateFrom else none) ∧
      (buildSearchQuery c).before =
        (if jsTruthyStr c.dateTo then c.dateTo else none) ∧
      (buildSearchQuery c).unseen = jsTruthyBool c.unreadOnly ∧
      (buildSearchQuery c).flagged = jsTruthyBool c.flaggedOnly ∧
      (jsTruthyStr c.query = false → jsTruthyStr c.dateFrom = false →
        jsTruthyStr c.dateTo = false → jsTruthyBool c.unreadOnly = false →
        jsTruthyBool c.flaggedOnly = false →
        buildSearchQuery c = { all := true })) := by
  obtain ⟨cq, csi, cdf, cdt, cuo, cfo⟩ := c
  constructor
  · intro kw hkw hne
    subst hkw
    have hq : jsTruthyStr (some kw) = true := by simp [jsTruthyStr, hne]
    refine ⟨?_, ?_, ?_, ?_, ?_⟩
    · rintro rfl
      by_cases hdf : jsTruthyStr cdf = true <;>
        by_cases hdt : jsTruthyStr cdt = true <;>
        by_cases huo : jsTruthyBool cuo = true <;>
        by_cases hfo : jsTruthyBool cfo = true <;>
        simp [buildSearchQuery, SearchQuery.isEmptyObj, hq, hdf, hdt, huo, hfo,
          jsTruthyStr_eq_none_false]
    · rintro rfl
      by_cases hdf : jsTruthyStr cdf = true <;>
        by_cases hdt : jsTruthyStr cdt = true <;>
        by_cases huo : jsTruthyBool cuo = true <;>
        by_cases hfo : jsTruthyBool cfo = true <;>
        simp [buildSearchQuery, SearchQuery.isEmptyObj, hq, hdf, hdt, huo, hfo,
          jsTruthyStr_eq_none_false]
    · rintro rfl
      by_cases hdf : jsTruthyStr cdf = true <;>
        by_cases hdt : jsTruthyStr cdt = true <;>
        by_cases huo : jsTruthyBool cuo = true <;>
        by_cases hfo : jsTruthyBool cfo = true <;>
        simp [buildSearchQuery, SearchQuery.isEmptyObj, hq, hdf, hdt, huo, hfo,
          jsTruthyStr_eq_none_false]
    · rintro rfl
      by_cases hdf : jsTruthyStr cdf = true <;>
        by_cases hdt : jsTruthyStr cdt = true <;>
        by_cases huo : jsTruthyBool cuo = true <;>
        by_cases hfo : jsTruthyBool cfo = true <;>
        simp [buildSearchQuery, SearchQuery.isEmptyObj, hq, hdf, hdt, huo, hfo,
          jsTruthyStr_eq_none_false]
    · rintro (rfl | rfl) <;>
        (by_cases hdf : jsTruthyStr cdf = true <;>
          by_cases hdt : jsTruthyStr cdt = true <;>
          by_cases huo : jsTruthyBool cuo = true <;>
          by_cases hfo : jsTruthyBool cfo = true <;>
          simp [buildSearchQuery, SearchQuery.isEmptyObj, hq, hdf, hdt,
            huo, hfo, jsTruthyStr_eq_none_false])
  · rcases csi with - | si
    case none =>
      by_cases hq : jsTruthyStr cq = true <;>
        by_cases hdf : jsTruthyStr cdf = true <;>
        by_cases hdt : jsTruthyStr cdt = true <;>
        by_cases huo : jsTruthyBool cuo = true <;>
        by_cases hfo : jsTruthyBool cfo = true <;>
        simp [buildSearchQuery, SearchQuery.isEmptyObj, hq, hdf, hdt, huo, hfo,
          jsTruthyStr_eq_none_false]
    case some =>
      cases si <;>
        (by_cases hq : jsTruthyStr cq = true <;>
          by_cases hdf : jsTruthyStr cdf = true <;>
          by_cases hdt : jsTruthyStr cdt = true <;>
          by_cases huo : jsTruthyBool cuo = true <;>
          by_cases hfo : jsTruthyBool cfo = true <;>
          simp [buildSearchQuery, SearchQuery.isEmptyObj, hq, hdf, hdt,
            huo, hfo, jsTruthyStr_eq_none_false])

/-- Witness for C4 at concrete criteria: a subject-scoped keyword with a
date bound and unread filter, and the all-scope default expansion. -/
theorem buildSearchQuery_spec_witness :
    ((buildSearchQuery
        { query := some "hi", searchIn := some SearchIn.subject,
          dateFrom := some "2024-01-01",
          unreadOnly := some true }).subject = some "hi" ∧
      (buildSearchQuery
        { query := some "hi", searchIn := some SearchIn.subject,
          dateFrom := some "2024-01-01",
          unreadOnly := some true }).orKey = none) ∧
    (buildSearchQuery
        { query := some "hi", searchIn := some SearchIn.subject,
          dateFrom := some "2024-01-01",
          unreadOnly := some true }).since = some "2024-01-01" ∧
    (buildSearchQuery
        { query := some "hi", searchIn := some SearchIn.subject,
          dateFrom := some "2024-01-01",
          unreadOnly := some true }).unseen = true ∧
    (buildSearchQuery { query := some "hi" }).orKey =
      some [FieldQuery.subject "hi", FieldQuery.from_ "hi",
            FieldQuery.to_ "hi", FieldQuery.body "hi"] ∧
    buildSearchQuery ({} : SearchCriteria) = { all := true } := by
  have h1 := (buildSearchQuery_spec
    { query := some "hi", searchIn := some SearchIn.subject,
      dateFrom := some "2024-01-01", unreadOnly := some true })
  have h2 := (buildSearchQuery_spec { query := some "hi" })
  have h3 := (buildSearchQuery_spec ({} : SearchCriteria))
  obtain ⟨hsub, -, -, -, hor⟩ := (h1.1 "hi" rfl (by decide)).1 rfl
  refine ⟨⟨hsub, hor⟩, ?_, ?_, ?_, ?_⟩
  · exact h1.2.1
  · exact h1.2.2.2.1
  · exact ((h2.1 "hi" rfl (by decide)).2.2.2.2 (Or.inl rfl)).1
  · exact h3.2.2.2.2.2 rfl rfl rfl rfl rfl

end EmailMcp
